import Mathlib

/-!
Shallow embedding of the rcache tiered read-through cache.

Sources embedded:
* `src/in_memory_cache.rs` — the in-process TTL store (`InMemoryCache`):
  `CacheValue`, `CacheError`, `InMemoryCache::resolve`.
* `src/kv_cache.rs` — the persistent-store adapter (`KvCache`) over a redis
  connection: `KvError`, `KvCache::resolve` (the set-with-expiry operation).
* `src/lib.rs` — the orchestrator `CacheService::resolve`.

Modelling conventions:
* The pluggable clock (`TimeSource::now`) is passed as an explicit `now : Nat`
  argument; all clock readings within one call are the same reading.
* `HashMap<String, CacheValue>` is an association list with key lookup on the
  first matching entry; a real `HashMap` never holds two entries for one key,
  which theorems assume, where needed, via a `Nodup` hypothesis on the keys.
* Stateful methods return their result paired with the post-state.
* The redis connection is a state holding the backing key-value data plus the
  sets of keys on which an individual GET or SET command fails; command
  failures carry an opaque cause string (`RedisError`).
* The caller-supplied computation (`FnOnce() -> String`) is side-effecting, so
  it is embedded as a state transformer `σ → String × σ` over an arbitrary
  state type `σ`: each application is one invocation.
-/

/-- `CacheValue` from `src/in_memory_cache.rs`: value, insertion time, ttl. -/
structure CacheValue where
  value : String
  timestamp : Nat
  ttl : Nat
deriving Repr, DecidableEq

/-- `CacheError` from `src/in_memory_cache.rs`. -/
inductive CacheError where
  | EmptyKey
deriving Repr, DecidableEq

/-- `ResolvePayload` from `src/cache_service.rs` / `src/kv_cache.rs`. -/
structure ResolvePayload where
  key : String
  value : String
  ttl : Nat
deriving Repr, DecidableEq

/-- `SetPayload` from `src/lib.rs` has exactly the same fields. -/
abbrev SetPayload := ResolvePayload

/-- The entry map of the in-process store (`HashMap<String, CacheValue>`). -/
abbrev ValuesMap := List (String × CacheValue)

/-- `HashMap::get`: the entry stored under `k`, if any. -/
def lookupValue (vs : ValuesMap) (k : String) : Option CacheValue :=
  (vs.find? (fun kv => kv.1 == k)).map Prod.snd

/-- `HashMap::remove`: drop the entry stored under `k`. -/
def removeKey (vs : ValuesMap) (k : String) : ValuesMap :=
  vs.filter (fun kv => kv.1 != k)

/-- `InMemoryCache` state from `src/in_memory_cache.rs`: the entry map and the
call counter (`hits`); both live under one mutex in the source, so one call
mutates them together. -/
structure InMemoryCache where
  values : ValuesMap
  hits : Nat
deriving Repr, DecidableEq

/-- The eviction step of `InMemoryCache::resolve` (src/in_memory_cache.rs
lines 61-67), applied after the counter increment: if the post-increment
counter is a multiple of 50000, retain only live entries (periodic sweep);
otherwise remove the requested key if its entry is stale (lazy check). -/
def InMemoryCache.evict (values : ValuesMap) (hits now : Nat) (key : String) :
    ValuesMap :=
  if hits % 50000 = 0 then
    values.filter (fun kv => now < kv.2.timestamp + kv.2.ttl)
  else
    match lookupValue values key with
    | some cached_value =>
      if now ≥ cached_value.timestamp + cached_value.ttl then
        removeKey values key
      else
        values
    | none => values

/-- `InMemoryCache::resolve` from `src/in_memory_cache.rs` (lines 51-78):
reject the empty key, increment the counter, read the clock, evict, then
return the entry under the key, inserting `(value, now, ttl)` if absent. -/
def InMemoryCache.resolve (c : InMemoryCache) (now : Nat)
    (payload : ResolvePayload) : Except CacheError String × InMemoryCache :=
  if payload.key = "" then
    (.error .EmptyKey, c)
  else
    let hits := c.hits + 1
    let values := InMemoryCache.evict c.values hits now payload.key
    match lookupValue values payload.key with
    | some cached => (.ok cached.value, ⟨values, hits⟩)
    | none =>
      (.ok payload.value,
        ⟨(payload.key, ⟨payload.value, now, payload.ttl⟩) :: values, hits⟩)

example :
    (InMemoryCache.resolve ⟨[], 0⟩ 5 ⟨"k", "v", 10⟩) =
      (.ok "v", ⟨[("k", ⟨"v", 5, 10⟩)], 1⟩) := rfl

example :
    (InMemoryCache.resolve ⟨[("k", ⟨"v", 5, 10⟩)], 1⟩ 9 ⟨"k", "other", 3⟩) =
      (.ok "v", ⟨[("k", ⟨"v", 5, 10⟩)], 2⟩) := rfl

example :
    (InMemoryCache.resolve ⟨[("k", ⟨"v", 5, 10⟩)], 1⟩ 15 ⟨"k", "other", 3⟩) =
      (.ok "other", ⟨[("k", ⟨"other", 15, 3⟩)], 2⟩) := rfl

example :
    (InMemoryCache.resolve ⟨[("a", ⟨"v", 0, 1⟩), ("b", ⟨"w", 0, 99⟩)], 49999⟩
        2 ⟨"c", "x", 1⟩) =
      (.ok "x", ⟨[("c", ⟨"x", 2, 1⟩), ("b", ⟨"w", 0, 99⟩)], 50000⟩) := rfl

/-- `RedisError`: an individual redis command failure, with an opaque cause. -/
inductive RedisError where
  | err : String → RedisError
deriving Repr, DecidableEq

/-- `KvError` from `src/kv_cache.rs`. -/
inductive KvError where
  | CommandFailed : RedisError → KvError
  | ConnectionNotEstablished
deriving Repr, DecidableEq

/-- The live redis connection held by `KvCache`: the backing store's data
(key, value, expiry seconds) plus the keys on which an individual GET or SET
command fails. -/
structure RedisConn where
  data : List (String × String × Nat)
  failingGet : List String
  failingSet : List String
deriving Repr, DecidableEq

/-- The stored (value, expiry) under `k` in the backing store, if any. -/
def RedisConn.lookup (r : RedisConn) (k : String) : Option (String × Nat) :=
  (r.data.find? (fun e => e.1 == k)).map Prod.snd

/-- `self.con.get(key)` as typed in `src/kv_cache.rs` line 35: redis GET
converted to `String`. A failing command errors; an absent key yields redis
nil, which the `String` conversion also reports as an error. -/
def RedisConn.getCmd (r : RedisConn) (k : String) : Except RedisError String :=
  if k ∈ r.failingGet then
    .error (.err "command failed")
  else
    match r.lookup k with
    | some v => .ok v.1
    | none => .error (.err "nil response could not be converted to String")

/-- `self.con.set_ex(key, value, ttl)` from `src/kv_cache.rs` line 38: store
`value` under `key` with an expiry of `ttl` seconds, or fail. -/
def RedisConn.setEx (r : RedisConn) (k v : String) (ttl : Nat) :
    Except RedisError RedisConn :=
  if k ∈ r.failingSet then
    .error (.err "command failed")
  else
    .ok { r with data := (k, v, ttl) :: r.data.filter (fun e => e.1 != k) }

/-- `KvCache::resolve` from `src/kv_cache.rs` (lines 34-43), the adapter's
set-with-expiry: GET the key, mapping any failure to the empty string; if the
result is empty, SET the supplied value with expiry `ttl` and return it
(failure surfacing as `CommandFailed`); otherwise return the GET result. -/
def KvCache.resolve (r : RedisConn) (payload : ResolvePayload) :
    Except KvError String × RedisConn :=
  let res := (r.getCmd payload.key).toOption.getD ""
  if res = "" then
    match r.setEx payload.key payload.value payload.ttl with
    | .error e => (.error (.CommandFailed e), r)
    | .ok r2 => (.ok payload.value, r2)
  else
    (.ok res, r)

/-- Modelled from the spec: `KvCache::get` is called by `CacheService::resolve`
in `src/lib.rs` but no non-test definition of it exists in the source. Per the
spec (section 4.3) `get(key)` returns the stored value if present and
non-empty, and reports absence — including anything the GET cannot yield as a
non-empty string — as none, never as an error. -/
def KvCache.get (r : RedisConn) (k : String) : Option String :=
  match (r.getCmd k).toOption with
  | some v => if v = "" then none else some v
  | none => none

/-- Modelled from the spec: `KvCache::set` is called with a `SetPayload` by
`CacheService::resolve` in `src/lib.rs` but no such method exists in the
source; per the spec (section 4.4 step 4) the orchestrator's persistent write
is `set_with_expiry`, which `src/kv_cache.rs` implements as `KvCache::resolve`. -/
def KvCache.set (r : RedisConn) (payload : SetPayload) :
    Except KvError String × RedisConn :=
  KvCache.resolve r payload

/-- Modelled from the spec: `InMemoryCache::get` is called by
`CacheService::resolve` in `src/lib.rs` but no non-test definition of it exists
in the source. Per the spec (sections 3 and 4.4 step 1) a lookup returns the
stored value only while the entry is live (`now < inserted_at + ttl`); a stale
entry must not be returned as a hit. -/
def InMemoryCache.get (c : InMemoryCache) (now : Nat) (k : String) :
    Option String :=
  match lookupValue c.values k with
  | some cached =>
    if now < cached.timestamp + cached.ttl then some cached.value else none
  | none => none

/-- Modelled from the spec: `InMemoryCache::set` is called with a `SetPayload`
by `CacheService::resolve` in `src/lib.rs` but no such method exists in the
source; per the spec (section 4.4 step 4) the Entry Store write is the store's
resolve contract of section 4.2, which `src/in_memory_cache.rs` implements as
`InMemoryCache::resolve`. -/
def InMemoryCache.set (c : InMemoryCache) (now : Nat) (payload : SetPayload) :
    Except CacheError String × InMemoryCache :=
  c.resolve now payload

/-- `CacheServiceError` from `src/lib.rs`. -/
inductive CacheServiceError where
  | InMemoryCacheError : CacheError → CacheServiceError
  | KvCacheError : KvError → CacheServiceError
deriving Repr, DecidableEq

/-- `CacheService` from `src/lib.rs`: the two tiers plus the configured ttl. -/
structure CacheService where
  in_memory_cache : InMemoryCache
  kv_cache : RedisConn
  ttl : Nat
deriving Repr, DecidableEq

/-- `CacheService::resolve` from `src/lib.rs` (lines 35-69): consult the
in-memory tier, then the kv tier; on a double miss invoke the resolver once,
write the computed value to the kv tier and then to the in-memory tier, and
return the computed value. Returns (result, post-service-state, post-resolver
state). -/
def CacheService.resolve {σ : Type} (svc : CacheService) (now : Nat)
    (key : String) (resolver : σ → String × σ) (s : σ) :
    Except CacheServiceError String × CacheService × σ :=
  match svc.in_memory_cache.get now key with
  | some value => (.ok value, svc, s)
  | none =>
    match KvCache.get svc.kv_cache key with
    | some value => (.ok value, svc, s)
    | none =>
      let value := (resolver s).1
      let s2 := (resolver s).2
      match KvCache.set svc.kv_cache ⟨key, value, svc.ttl⟩ with
      | (.error e, kvPost) =>
        (.error (.KvCacheError e), { svc with kv_cache := kvPost }, s2)
      | (.ok _, kvPost) =>
        match svc.in_memory_cache.set now ⟨key, value, svc.ttl⟩ with
        | (.error e, memPost) =>
          (.error (.InMemoryCacheError e),
            { svc with in_memory_cache := memPost, kv_cache := kvPost }, s2)
        | (.ok _, memPost) =>
          (.ok value,
            { svc with in_memory_cache := memPost, kv_cache := kvPost }, s2)

example :
    (KvCache.resolve ⟨[("k", "old", 7)], [], []⟩ ⟨"k", "new", 5⟩) =
      (.ok "old", ⟨[("k", "old", 7)], [], []⟩) := rfl

example :
    (KvCache.resolve ⟨[], [], []⟩ ⟨"k", "new", 5⟩) =
      (.ok "new", ⟨[("k", "new", 5)], [], []⟩) := rfl

example :
    (KvCache.resolve ⟨[("k", "", 7)], [], []⟩ ⟨"k", "new", 5⟩) =
      (.ok "new", ⟨[("k", "new", 5)], [], []⟩) := rfl

example :
    (CacheService.resolve ⟨⟨[], 0⟩, ⟨[], [], []⟩, 10⟩ 0 "k"
        (fun n : Nat => ("v", n + 1)) 0) =
      (.ok "v", ⟨⟨[("k", ⟨"v", 0, 10⟩)], 1⟩, ⟨[("k", "v", 10)], [], []⟩, 10⟩,
        1) := rfl

example :
    (CacheService.resolve ⟨⟨[("k", ⟨"v", 0, 10⟩)], 3⟩, ⟨[], [], []⟩, 10⟩ 5 "k"
        (fun n : Nat => ("never", n + 1)) 0) =
      (.ok "v", ⟨⟨[("k", ⟨"v", 0, 10⟩)], 3⟩, ⟨[], [], []⟩, 10⟩, 0) := rfl

example :
    (CacheService.resolve ⟨⟨[], 0⟩, ⟨[("k", "v", 9)], [], []⟩, 10⟩ 5 "k"
        (fun n : Nat => ("never", n + 1)) 0) =
      (.ok "v", ⟨⟨[], 0⟩, ⟨[("k", "v", 9)], [], []⟩, 10⟩, 0) := rfl

theorem lookupValue_cons (a : String × CacheValue) (vs : ValuesMap)
    (k : String) :
    lookupValue (a :: vs) k = if a.1 = k then some a.2 else lookupValue vs k := by
  by_cases h : a.1 = k
  · simp [lookupValue, List.find?_cons_of_pos, h]
  · simp [lookupValue, List.find?_cons_of_neg, h]

theorem lookupValue_eq_none_of_not_mem (vs : ValuesMap) (k : String)
    (h : k ∉ vs.map Prod.fst) : lookupValue vs k = none := by
  induction vs with
  | nil => rfl
  | cons a tl ih =>
    simp only [List.map_cons, List.mem_cons, not_or] at h
    rw [lookupValue_cons, if_neg (fun hk => h.1 hk.symm)]
    exact ih h.2

theorem lookupValue_filter_of_none (vs : ValuesMap) (k : String)
    (q : String × CacheValue → Bool) (h : lookupValue vs k = none) :
    lookupValue (vs.filter q) k = none := by
  induction vs with
  | nil => rfl
  | cons a tl ih =>
    rw [lookupValue_cons] at h
    by_cases hk : a.1 = k
    · simp [hk] at h
    · rw [if_neg hk] at h
      rw [List.filter_cons]
      by_cases hq : q a
      · rw [if_pos hq, lookupValue_cons, if_neg hk]
        exact ih h
      · rw [if_neg hq]
        exact ih h

theorem lookupValue_filter_of_pos (vs : ValuesMap) (k : String)
    (cv : CacheValue) (q : String × CacheValue → Bool)
    (h : lookupValue vs k = some cv) (hq : q (k, cv) = true) :
    lookupValue (vs.filter q) k = some cv := by
  induction vs with
  | nil => simp [lookupValue] at h
  | cons a tl ih =>
    rw [lookupValue_cons] at h
    by_cases hk : a.1 = k
    · rw [if_pos hk, Option.some_inj] at h
      have ha : a = (k, cv) := by
        cases a
        simp_all
      rw [List.filter_cons, ha, if_pos hq, lookupValue_cons, if_pos rfl]
    · rw [if_neg hk] at h
      rw [List.filter_cons]
      by_cases hqa : q a
      · rw [if_pos hqa, lookupValue_cons, if_neg hk]
        exact ih h
      · rw [if_neg hqa]
        exact ih h

theorem lookupValue_filter_of_neg (vs : ValuesMap) (k : String)
    (cv : CacheValue) (q : String × CacheValue → Bool)
    (hnd : (vs.map Prod.fst).Nodup)
    (h : lookupValue vs k = some cv) (hq : q (k, cv) = false) :
    lookupValue (vs.filter q) k = none := by
  induction vs with
  | nil => simp [lookupValue] at h
  | cons a tl ih =>
    rw [List.map_cons, List.nodup_cons] at hnd
    rw [lookupValue_cons] at h
    by_cases hk : a.1 = k
    · rw [if_pos hk, Option.some_inj] at h
      have ha : a = (k, cv) := by
        cases a
        simp_all
      have htl : lookupValue tl k = none := by
        refine lookupValue_eq_none_of_not_mem tl k ?_
        rw [← hk]
        exact hnd.1
      rw [List.filter_cons, ha, hq]
      simp only [Bool.false_eq_true, if_false]
      exact lookupValue_filter_of_none tl k q htl
    · rw [if_neg hk] at h
      rw [List.filter_cons]
      by_cases hqa : q a
      · rw [if_pos hqa, lookupValue_cons, if_neg hk]
        exact ih hnd.2 h
      · rw [if_neg hqa]
        exact ih hnd.2 h

theorem removeKey_cons_of_eq (a : String × CacheValue) (tl : ValuesMap)
    (k : String) (h : a.1 = k) : removeKey (a :: tl) k = removeKey tl k := by
  simp [removeKey, List.filter_cons, h]

theorem removeKey_cons_of_ne (a : String × CacheValue) (tl : ValuesMap)
    (k : String) (h : a.1 ≠ k) :
    removeKey (a :: tl) k = a :: removeKey tl k := by
  simp [removeKey, List.filter_cons, h]

theorem lookupValue_removeKey_self (vs : ValuesMap) (k : String) :
    lookupValue (removeKey vs k) k = none := by
  induction vs with
  | nil => rfl
  | cons a tl ih =>
    by_cases hk : a.1 = k
    · rw [removeKey_cons_of_eq a tl k hk]
      exact ih
    · rw [removeKey_cons_of_ne a tl k hk, lookupValue_cons, if_neg hk]
      exact ih

theorem lookupValue_removeKey_other (vs : ValuesMap) (k k2 : String)
    (h : k2 ≠ k) : lookupValue (removeKey vs k) k2 = lookupValue vs k2 := by
  induction vs with
  | nil => rfl
  | cons a tl ih =>
    by_cases hk : a.1 = k
    · have hne : a.1 ≠ k2 := by
        rw [hk]
        exact fun he => h he.symm
      rw [removeKey_cons_of_eq a tl k hk, lookupValue_cons, if_neg hne, ih]
    · rw [removeKey_cons_of_ne a tl k hk, lookupValue_cons, lookupValue_cons,
        ih]

theorem evict_sweep (values : ValuesMap) (hits now : Nat) (key : String)
    (h : hits % 50000 = 0) :
    InMemoryCache.evict values hits now key =
      values.filter (fun kv => now < kv.2.timestamp + kv.2.ttl) := by
  rw [InMemoryCache.evict, if_pos h]

theorem evict_lazy_of_none (values : ValuesMap) (hits now : Nat)
    (key : String) (hns : hits % 50000 ≠ 0)
    (h : lookupValue values key = none) :
    InMemoryCache.evict values hits now key = values := by
  rw [InMemoryCache.evict, if_neg hns, h]

theorem evict_lazy_of_live (values : ValuesMap) (hits now : Nat)
    (key : String) (cv : CacheValue) (hns : hits % 50000 ≠ 0)
    (h : lookupValue values key = some cv)
    (hlive : now < cv.timestamp + cv.ttl) :
    InMemoryCache.evict values hits now key = values := by
  rw [InMemoryCache.evict, if_neg hns, h]
  simp only [ge_iff_le, ite_eq_right_iff]
  intro hc
  omega

theorem evict_lazy_of_stale (values : ValuesMap) (hits now : Nat)
    (key : String) (cv : CacheValue) (hns : hits % 50000 ≠ 0)
    (h : lookupValue values key = some cv)
    (hstale : now ≥ cv.timestamp + cv.ttl) :
    InMemoryCache.evict values hits now key = removeKey values key := by
  rw [InMemoryCache.evict, if_neg hns, h]
  show (if now ≥ cv.timestamp + cv.ttl then removeKey values key else values) =
    removeKey values key
  rw [if_pos hstale]

theorem resolve_eq_of_found (c : InMemoryCache) (now : Nat)
    (p : ResolvePayload) (cv : CacheValue) (hk : p.key ≠ "")
    (h : lookupValue (InMemoryCache.evict c.values (c.hits + 1) now p.key)
      p.key = some cv) :
    c.resolve now p =
      (.ok cv.value,
        ⟨InMemoryCache.evict c.values (c.hits + 1) now p.key, c.hits + 1⟩) := by
  simp only [InMemoryCache.resolve, if_neg hk, h]

theorem resolve_eq_of_not_found (c : InMemoryCache) (now : Nat)
    (p : ResolvePayload) (hk : p.key ≠ "")
    (h : lookupValue (InMemoryCache.evict c.values (c.hits + 1) now p.key)
      p.key = none) :
    c.resolve now p =
      (.ok p.value,
        ⟨(p.key, ⟨p.value, now, p.ttl⟩) ::
            InMemoryCache.evict c.values (c.hits + 1) now p.key,
          c.hits + 1⟩) := by
  simp only [InMemoryCache.resolve, if_neg hk, h]

/-- C2: for every Entry Store state and every resolve call with a non-empty
key whose post-increment call counter is an exact multiple of 50000, every
entry that was stale at that call's clock reading (`now ≥ inserted_at + ttl`)
has been removed by the sweep after the call, including entries under keys
other than the requested one; under the requested key only the freshly
inserted `(value, now, ttl)` entry remains in its place. -/
theorem C2_periodic_sweep_removes_stale (c : InMemoryCache) (now : Nat)
    (p : ResolvePayload) (hk : p.key ≠ "")
    (hnd : (c.values.map Prod.fst).Nodup)
    (hsweep : (c.hits + 1) % 50000 = 0) :
    ∀ k cv, lookupValue c.values k = some cv →
      now ≥ cv.timestamp + cv.ttl →
      lookupValue (c.resolve now p).2.values k =
        (if k = p.key then some ⟨p.value, now, p.ttl⟩ else none) := by
  intro k cv hpre hstale
  have hfilter :
      lookupValue
        (c.values.filter (fun kv => now < kv.2.timestamp + kv.2.ttl)) k =
        none := by
    refine lookupValue_filter_of_neg c.values k cv _ hnd hpre ?_
    simp only [decide_eq_false_iff_not, not_lt]
    omega
  have hev := evict_sweep c.values (c.hits + 1) now p.key hsweep
  by_cases hkp : k = p.key
  · subst hkp
    have hnone :
        lookupValue (InMemoryCache.evict c.values (c.hits + 1) now p.key)
          p.key = none := by
      rw [hev]
      exact hfilter
    rw [resolve_eq_of_not_found c now p hk hnone]
    simp [lookupValue_cons]
  · have hlk :
        lookupValue (InMemoryCache.evict c.values (c.hits + 1) now p.key) k =
          none := by
      rw [hev]
      exact hfilter
    rw [if_neg hkp]
    cases hcase :
        lookupValue (InMemoryCache.evict c.values (c.hits + 1) now p.key)
          p.key with
    | some cv2 =>
      rw [resolve_eq_of_found c now p cv2 hk hcase]
      exact hlk
    | none =>
      rw [resolve_eq_of_not_found c now p hk hcase, lookupValue_cons,
        if_neg (fun he => hkp he.symm)]
      exact hlk

/-- C2 witness: on the 50000th call with key "b", the stale entry under the
unrelated key "a" is removed. -/
theorem C2_witness :
    lookupValue
      ((InMemoryCache.resolve ⟨[("a", ⟨"old", 0, 1⟩)], 49999⟩ 5
        ⟨"b", "new", 10⟩).2).values "a" =
      (if "a" = "b" then some ⟨"new", 5, 10⟩ else none) :=
  C2_periodic_sweep_removes_stale ⟨[("a", ⟨"old", 0, 1⟩)], 49999⟩ 5
    ⟨"b", "new", 10⟩ (by decide) (by decide) (by decide) "a" ⟨"old", 0, 1⟩
    rfl (by decide)

/-- C3: an Entry Store resolve of a non-empty key whose entry is present and
live at the call's clock reading returns the stored value and leaves that
entry (value, insertion time, ttl) exactly as it was, whatever value and ttl
the caller supplied. -/
theorem C3_live_hit_unchanged (c : InMemoryCache) (now : Nat)
    (p : ResolvePayload) (hk : p.key ≠ "") (cv : CacheValue)
    (hfound : lookupValue c.values p.key = some cv)
    (hlive : now < cv.timestamp + cv.ttl) :
    (c.resolve now p).1 = .ok cv.value ∧
    lookupValue (c.resolve now p).2.values p.key = some cv := by
  have hev :
      lookupValue (InMemoryCache.evict c.values (c.hits + 1) now p.key)
        p.key = some cv := by
    by_cases hsw : (c.hits + 1) % 50000 = 0
    · rw [evict_sweep c.values (c.hits + 1) now p.key hsw]
      refine lookupValue_filter_of_pos c.values p.key cv _ hfound ?_
      simp only [decide_eq_true_eq]
      exact hlive
    · rw [evict_lazy_of_live c.values (c.hits + 1) now p.key cv hsw hfound
        hlive]
      exact hfound
  rw [resolve_eq_of_found c now p cv hk hev]
  exact ⟨rfl, hev⟩

/-- C3 witness: a live hit returns the stored value and preserves the entry,
ignoring the caller's differing value and ttl. -/
theorem C3_witness :
    (InMemoryCache.resolve ⟨[("k", ⟨"v", 2, 10⟩)], 7⟩ 5 ⟨"k", "other", 3⟩).1 =
      .ok "v" ∧
    lookupValue
      ((InMemoryCache.resolve ⟨[("k", ⟨"v", 2, 10⟩)], 7⟩ 5
        ⟨"k", "other", 3⟩).2).values "k" = some ⟨"v", 2, 10⟩ :=
  C3_live_hit_unchanged ⟨[("k", ⟨"v", 2, 10⟩)], 7⟩ 5 ⟨"k", "other", 3⟩
    (by decide) ⟨"v", 2, 10⟩ rfl (by decide)

/-- C5: Entry Store resolve fails with `EmptyKey` exactly when the supplied
key is the empty string, and in that case the whole store state — the entry
map (hence its size) and the hits counter — is unchanged by the call. -/
theorem C5_empty_key_rejected (c : InMemoryCache) (now : Nat)
    (p : ResolvePayload) :
    ((c.resolve now p).1 = .error .EmptyKey ↔ p.key = "") ∧
    (p.key = "" → (c.resolve now p).2 = c) := by
  by_cases hk : p.key = ""
  · refine ⟨⟨fun _ => hk, fun _ => ?_⟩, fun _ => ?_⟩
    · simp [InMemoryCache.resolve, hk]
    · simp [InMemoryCache.resolve, hk]
  · refine ⟨⟨fun herr => ?_, fun h => absurd h hk⟩, fun h => absurd h hk⟩
    exfalso
    cases hcase :
        lookupValue (InMemoryCache.evict c.values (c.hits + 1) now p.key)
          p.key with
    | some cv =>
      rw [resolve_eq_of_found c now p cv hk hcase] at herr
      simp at herr
    | none =>
      rw [resolve_eq_of_not_found c now p hk hcase] at herr
      simp at herr

/-- C5 witness: resolving the empty key leaves a concrete store, including
its size and hits counter, exactly as it was. -/
theorem C5_witness :
    (InMemoryCache.resolve ⟨[("a", ⟨"v", 0, 5⟩)], 3⟩ 7 ⟨"", "w", 5⟩).2 =
      ⟨[("a", ⟨"v", 0, 5⟩)], 3⟩ :=
  (C5_empty_key_rejected ⟨[("a", ⟨"v", 0, 5⟩)], 3⟩ 7 ⟨"", "w", 5⟩).2 rfl

/-- C8: on a resolve call with a non-empty key on which the periodic sweep
does not run, the lazy check removes at most the requested key — removing it
exactly when its entry is stale at this call's clock reading — and the whole
call leaves entries under every other key untouched. -/
theorem C8_lazy_check_frame (c : InMemoryCache) (now : Nat)
    (p : ResolvePayload) (hk : p.key ≠ "")
    (hns : (c.hits + 1) % 50000 ≠ 0) :
    (∀ k, k ≠ p.key →
      lookupValue (InMemoryCache.evict c.values (c.hits + 1) now p.key) k =
        lookupValue c.values k ∧
      lookupValue (c.resolve now p).2.values k = lookupValue c.values k) ∧
    (∀ cv, lookupValue c.values p.key = some cv →
      lookupValue (InMemoryCache.evict c.values (c.hits + 1) now p.key)
        p.key =
        (if now ≥ cv.timestamp + cv.ttl then none else some cv)) ∧
    (lookupValue c.values p.key = none →
      InMemoryCache.evict c.values (c.hits + 1) now p.key = c.values) := by
  have hevframe : ∀ k, k ≠ p.key →
      lookupValue (InMemoryCache.evict c.values (c.hits + 1) now p.key) k =
        lookupValue c.values k := by
    intro k hkp
    cases hcase : lookupValue c.values p.key with
    | none => rw [evict_lazy_of_none c.values _ now p.key hns hcase]
    | some cv =>
      by_cases hstale : now ≥ cv.timestamp + cv.ttl
      · rw [evict_lazy_of_stale c.values _ now p.key cv hns hcase hstale]
        exact lookupValue_removeKey_other c.values p.key k hkp
      · rw [evict_lazy_of_live c.values _ now p.key cv hns hcase (by omega)]
  refine ⟨?_, ?_, ?_⟩
  · intro k hkp
    refine ⟨hevframe k hkp, ?_⟩
    cases hcase :
        lookupValue (InMemoryCache.evict c.values (c.hits + 1) now p.key)
          p.key with
    | some cv =>
      rw [resolve_eq_of_found c now p cv hk hcase]
      exact hevframe k hkp
    | none =>
      rw [resolve_eq_of_not_found c now p hk hcase, lookupValue_cons,
        if_neg (fun he => hkp he.symm)]
      exact hevframe k hkp
  · intro cv hcase
    by_cases hstale : now ≥ cv.timestamp + cv.ttl
    · rw [evict_lazy_of_stale c.values _ now p.key cv hns hcase hstale,
        if_pos hstale]
      exact lookupValue_removeKey_self c.values p.key
    · rw [evict_lazy_of_live c.values _ now p.key cv hns hcase (by omega),
        if_neg hstale]
      exact hcase
  · exact evict_lazy_of_none c.values _ now p.key hns

theorem svcResolve_of_mem_hit {σ : Type} (svc : CacheService) (now : Nat)
    (key : String) (resolver : σ → String × σ) (s : σ) (v : String)
    (h : svc.in_memory_cache.get now key = some v) :
    svc.resolve now key resolver s = (.ok v, svc, s) := by
  simp only [CacheService.resolve, h]

theorem svcResolve_of_kv_hit {σ : Type} (svc : CacheService) (now : Nat)
    (key : String) (resolver : σ → String × σ) (s : σ) (v : String)
    (hmem : svc.in_memory_cache.get now key = none)
    (hkv : KvCache.get svc.kv_cache key = some v) :
    svc.resolve now key resolver s = (.ok v, svc, s) := by
  simp only [CacheService.resolve, hmem, hkv]

theorem svcResolve_of_miss_kvfail {σ : Type} (svc : CacheService) (now : Nat)
    (key : String) (resolver : σ → String × σ) (s : σ) (e : KvError)
    (kvPost : RedisConn)
    (hmem : svc.in_memory_cache.get now key = none)
    (hkv : KvCache.get svc.kv_cache key = none)
    (hset : KvCache.set svc.kv_cache ⟨key, (resolver s).1, svc.ttl⟩ =
      (.error e, kvPost)) :
    svc.resolve now key resolver s =
      (.error (.KvCacheError e), { svc with kv_cache := kvPost },
        (resolver s).2) := by
  simp only [CacheService.resolve, hmem, hkv, hset]

theorem svcResolve_of_miss_memfail {σ : Type} (svc : CacheService) (now : Nat)
    (key : String) (resolver : σ → String × σ) (s : σ) (w : String)
    (kvPost : RedisConn) (e : CacheError) (memPost : InMemoryCache)
    (hmem : svc.in_memory_cache.get now key = none)
    (hkv : KvCache.get svc.kv_cache key = none)
    (hset : KvCache.set svc.kv_cache ⟨key, (resolver s).1, svc.ttl⟩ =
      (.ok w, kvPost))
    (hmemset : svc.in_memory_cache.set now ⟨key, (resolver s).1, svc.ttl⟩ =
      (.error e, memPost)) :
    svc.resolve now key resolver s =
      (.error (.InMemoryCacheError e),
        { svc with in_memory_cache := memPost, kv_cache := kvPost },
        (resolver s).2) := by
  simp only [CacheService.resolve, hmem, hkv, hset, hmemset]

theorem svcResolve_of_miss_ok {σ : Type} (svc : CacheService) (now : Nat)
    (key : String) (resolver : σ → String × σ) (s : σ) (w : String)
    (kvPost : RedisConn) (m : String) (memPost : InMemoryCache)
    (hmem : svc.in_memory_cache.get now key = none)
    (hkv : KvCache.get svc.kv_cache key = none)
    (hset : KvCache.set svc.kv_cache ⟨key, (resolver s).1, svc.ttl⟩ =
      (.ok w, kvPost))
    (hmemset : svc.in_memory_cache.set now ⟨key, (resolver s).1, svc.ttl⟩ =
      (.ok m, memPost)) :
    svc.resolve now key resolver s =
      (.ok (resolver s).1,
        { svc with in_memory_cache := memPost, kv_cache := kvPost },
        (resolver s).2) := by
  simp only [CacheService.resolve, hmem, hkv, hset, hmemset]

/-- C1: for every non-empty key, `CacheService::resolve` first consults the
in-process tier, then the persistent tier: an in-process hit returns that
value with no state change and no invocation of the computation; an
in-process miss with a persistent hit likewise; and only when both tiers miss
is the computation invoked, exactly once, with its value being the value a
successful resolve returns. -/
theorem C1_tier_order_compute_once {σ : Type} (svc : CacheService) (now : Nat)
    (key : String) (hk : key ≠ "") (resolver : σ → String × σ) (s : σ) :
    (∀ v, svc.in_memory_cache.get now key = some v →
      svc.resolve now key resolver s = (.ok v, svc, s)) ∧
    (svc.in_memory_cache.get now key = none →
      ∀ v, KvCache.get svc.kv_cache key = some v →
        svc.resolve now key resolver s = (.ok v, svc, s)) ∧
    (svc.in_memory_cache.get now key = none →
      KvCache.get svc.kv_cache key = none →
      (svc.resolve now key resolver s).2.2 = (resolver s).2 ∧
      ∀ v, (svc.resolve now key resolver s).1 = .ok v →
        v = (resolver s).1) := by
  refine ⟨?_, ?_, ?_⟩
  · intro v h
    exact svcResolve_of_mem_hit svc now key resolver s v h
  · intro hmem v hkv
    exact svcResolve_of_kv_hit svc now key resolver s v hmem hkv
  · intro hmem hkv
    cases hset : KvCache.set svc.kv_cache ⟨key, (resolver s).1, svc.ttl⟩ with
    | mk res kvPost =>
      cases res with
      | error e =>
        rw [svcResolve_of_miss_kvfail svc now key resolver s e kvPost hmem
          hkv hset]
        exact ⟨rfl, fun v hv => by simp at hv⟩
      | ok w =>
        cases hmemset :
            svc.in_memory_cache.set now ⟨key, (resolver s).1, svc.ttl⟩ with
        | mk mres memPost =>
          cases mres with
          | error e =>
            rw [svcResolve_of_miss_memfail svc now key resolver s w kvPost e
              memPost hmem hkv hset hmemset]
            exact ⟨rfl, fun v hv => by simp at hv⟩
          | ok m =>
            rw [svcResolve_of_miss_ok svc now key resolver s w kvPost m
              memPost hmem hkv hset hmemset]
            exact ⟨rfl, fun v hv => by simpa using hv.symm⟩

/-- C1 witness: on a double miss the computation runs exactly once (the
invocation counter moves from 0 to 1). -/
theorem C1_witness :
    (CacheService.resolve ⟨⟨[], 0⟩, ⟨[], [], []⟩, 10⟩ 0 "k"
      (fun n : Nat => ("v", n + 1)) 0).2.2 = 1 :=
  ((C1_tier_order_compute_once ⟨⟨[], 0⟩, ⟨[], [], []⟩, 10⟩ 0 "k" (by decide)
    (fun n : Nat => ("v", n + 1)) 0).2.2 rfl rfl).1

/-- C4: on the orchestrator's double-miss path the computed value goes to the
persistent tier first: if that write fails, resolve fails with the wrapped
error and the Entry Store is completely unchanged; if it succeeds, the
service ends up with the persistent tier's post-write state and the Entry
Store state produced by writing the computed value. -/
theorem C4_persistent_write_first {σ : Type} (svc : CacheService) (now : Nat)
    (key : String) (resolver : σ → String × σ) (s : σ)
    (hmem : svc.in_memory_cache.get now key = none)
    (hkv : KvCache.get svc.kv_cache key = none) :
    (∀ e kvPost,
      KvCache.set svc.kv_cache ⟨key, (resolver s).1, svc.ttl⟩ =
        (.error e, kvPost) →
      (svc.resolve now key resolver s).1 = .error (.KvCacheError e) ∧
      (svc.resolve now key resolver s).2.1.in_memory_cache =
        svc.in_memory_cache) ∧
    (∀ w kvPost,
      KvCache.set svc.kv_cache ⟨key, (resolver s).1, svc.ttl⟩ =
        (.ok w, kvPost) →
      (svc.resolve now key resolver s).2.1.kv_cache = kvPost ∧
      (svc.resolve now key resolver s).2.1.in_memory_cache =
        (svc.in_memory_cache.set now ⟨key, (resolver s).1, svc.ttl⟩).2) := by
  constructor
  · intro e kvPost hset
    rw [svcResolve_of_miss_kvfail svc now key resolver s e kvPost hmem hkv
      hset]
    exact ⟨rfl, rfl⟩
  · intro w kvPost hset
    cases hmemset :
        svc.in_memory_cache.set now ⟨key, (resolver s).1, svc.ttl⟩ with
    | mk mres memPost =>
      cases mres with
      | error e =>
        rw [svcResolve_of_miss_memfail svc now key resolver s w kvPost e
          memPost hmem hkv hset hmemset]
        exact ⟨rfl, rfl⟩
      | ok m =>
        rw [svcResolve_of_miss_ok svc now key resolver s w kvPost m memPost
          hmem hkv hset hmemset]
        exact ⟨rfl, rfl⟩

/-- C4 witness: with the persistent SET on "k" failing, a concrete resolve
leaves the Entry Store exactly as it was. -/
theorem C4_witness :
    (CacheService.resolve ⟨⟨[], 5⟩, ⟨[], [], ["k"]⟩, 10⟩ 0 "k"
      (fun n : Nat => ("v", n + 1)) 0).2.1.in_memory_cache = ⟨[], 5⟩ :=
  ((C4_persistent_write_first ⟨⟨[], 5⟩, ⟨[], [], ["k"]⟩, 10⟩ 0 "k"
    (fun n : Nat => ("v", n + 1)) 0 rfl rfl).1
    (.CommandFailed (.err "command failed")) ⟨[], [], ["k"]⟩ rfl).2

/-- C7: an in-process miss followed by a persistent hit returns the
persistent value and changes nothing: the whole service state, in particular
the Entry Store, is untouched, so the key is still not an in-process hit
afterwards. -/
theorem C7_no_warmup_on_kv_hit {σ : Type} (svc : CacheService) (now : Nat)
    (key : String) (resolver : σ → String × σ) (s : σ)
    (hmem : svc.in_memory_cache.get now key = none)
    (v : String) (hkv : KvCache.get svc.kv_cache key = some v) :
    svc.resolve now key resolver s = (.ok v, svc, s) ∧
    (svc.resolve now key resolver s).2.1.in_memory_cache.get now key =
      none := by
  have h := svcResolve_of_kv_hit svc now key resolver s v hmem hkv
  refine ⟨h, ?_⟩
  rw [h]
  exact hmem

/-- C7 witness: a persistent hit on "k" leaves the empty Entry Store empty. -/
theorem C7_witness :
    CacheService.resolve ⟨⟨[], 0⟩, ⟨[("k", "v", 9)], [], []⟩, 10⟩ 5 "k"
      (fun n : Nat => ("never", n + 1)) 0 =
      (.ok "v", ⟨⟨[], 0⟩, ⟨[("k", "v", 9)], [], []⟩, 10⟩, 0) :=
  (C7_no_warmup_on_kv_hit ⟨⟨[], 0⟩, ⟨[("k", "v", 9)], [], []⟩, 10⟩ 5 "k"
    (fun n : Nat => ("never", n + 1)) 0 rfl "v" rfl).1

/-- C8 witness: a sweep-free call on key "a" (whose entry is stale) leaves
the entry under the other key "b" untouched. -/
theorem C8_witness :
    lookupValue
      ((InMemoryCache.resolve ⟨[("a", ⟨"v", 0, 1⟩), ("b", ⟨"w", 0, 9⟩)], 3⟩ 5
        ⟨"a", "x", 2⟩).2).values "b" =
      lookupValue [("a", ⟨"v", 0, 1⟩), ("b", ⟨"w", 0, 9⟩)] "b" :=
  ((C8_lazy_check_frame ⟨[("a", ⟨"v", 0, 1⟩), ("b", ⟨"w", 0, 9⟩)], 3⟩ 5
      ⟨"a", "x", 2⟩ (by decide) (by decide)).1 "b" (by decide)).2

theorem kvResolve_hit_branch (r : RedisConn) (p : ResolvePayload) (v : String)
    (hget : r.getCmd p.key = .ok v) (hne : v ≠ "") :
    KvCache.resolve r p = (.ok v, r) := by
  simp only [KvCache.resolve, hget, Except.toOption, Option.getD, if_neg hne]

theorem kvResolve_write_branch (r : RedisConn) (p : ResolvePayload)
    (hget : (r.getCmd p.key).toOption.getD "" = "")
    (r2 : RedisConn) (hset : r.setEx p.key p.value p.ttl = .ok r2) :
    KvCache.resolve r p = (.ok p.value, r2) ∧
    r2.lookup p.key = some (p.value, p.ttl) := by
  constructor
  · simp only [KvCache.resolve, hget, if_pos rfl, hset, if_true]
  · rw [RedisConn.setEx] at hset
    by_cases hin : p.key ∈ r.failingSet
    · rw [if_pos hin] at hset
      exact absurd hset (by simp)
    · rw [if_neg hin] at hset
      injection hset with h
      rw [← h, RedisConn.lookup]
      simp [List.find?_cons_of_pos]

theorem getCmd_ok_of_getD_ne (x : Except RedisError String) (v : String)
    (h : x.toOption.getD "" = v) (hne : v ≠ "") : x = .ok v := by
  cases x with
  | error e => exact absurd h (by simpa [Except.toOption] using fun hv => hne hv.symm)
  | ok w =>
    rw [show w = v from by simpa [Except.toOption] using h]

theorem getD_empty_of_kvGet_none (r : RedisConn) (k : String)
    (h : KvCache.get r k = none) : (r.getCmd k).toOption.getD "" = "" := by
  cases hc : (r.getCmd k).toOption with
  | none => rfl
  | some v =>
    by_cases hv : v = ""
    · rw [Option.getD_some]
      exact hv
    · exfalso
      have hGv : KvCache.get r k = some v := by
        rw [KvCache.get, hc]
        show (if v = "" then none else some v) = some v
        rw [if_neg hv]
      exact absurd (h.symm.trans hGv) (by simp)

/-- C6 counterexample: the backing store holds the empty string as the value
of "k" — the key currently holds a value — yet set-with-expiry does not
return that existing value: it overwrites the entry with the supplied value
and returns the supplied value. -/
theorem C6_counterexample :
    RedisConn.lookup ⟨[("k", "", 9)], [], []⟩ "k" = some ("", 9) ∧
    KvCache.resolve ⟨[("k", "", 9)], [], []⟩ ⟨"k", "new", 5⟩ =
      (.ok "new", ⟨[("k", "new", 5)], [], []⟩) :=
  ⟨rfl, rfl⟩

/-- C6 amended: set-with-expiry is read-check-then-write with first-writer
wins for non-empty stored values: if the key's GET succeeds with a non-empty
value it returns that value without overwriting; if the GET yields the empty
string or fails — in particular when the key is absent or holds the empty
string — it writes the supplied value with an expiry of ttl seconds and
returns the written value. -/
theorem C6_first_writer_wins_nonempty (r : RedisConn) (p : ResolvePayload) :
    (∀ v, r.getCmd p.key = .ok v → v ≠ "" →
      KvCache.resolve r p = (.ok v, r)) ∧
    ((r.getCmd p.key).toOption.getD "" = "" →
      ∀ r2, r.setEx p.key p.value p.ttl = .ok r2 →
        KvCache.resolve r p = (.ok p.value, r2) ∧
        r2.lookup p.key = some (p.value, p.ttl)) := by
  constructor
  · intro v hget hne
    exact kvResolve_hit_branch r p v hget hne
  · intro hget r2 hset
    exact kvResolve_write_branch r p hget r2 hset

/-- C6 witness: a non-empty stored value wins, is returned, and is not
overwritten. -/
theorem C6_witness :
    KvCache.resolve ⟨[("k", "old", 7)], [], []⟩ ⟨"k", "new", 5⟩ =
      (.ok "old", ⟨[("k", "old", 7)], [], []⟩) :=
  (C6_first_writer_wins_nonempty ⟨[("k", "old", 7)], [], []⟩
    ⟨"k", "new", 5⟩).1 "old" rfl (by decide)

/-- C9 counterexample: the GET of "k" against the backing store fails after a
connection exists, yet set-with-expiry does not surface CommandFailed: it
silently treats the key as absent, overwrites the stored value, and returns
the caller's value as a success. -/
theorem C9_counterexample :
    RedisConn.getCmd ⟨[("k", "stored", 9)], ["k"], []⟩ "k" =
      .error (.err "command failed") ∧
    KvCache.resolve ⟨[("k", "stored", 9)], ["k"], []⟩ ⟨"k", "v", 5⟩ =
      (.ok "v", ⟨[("k", "v", 5)], ["k"], []⟩) :=
  ⟨rfl, rfl⟩

/-- C9 amended: a SET failure inside set-with-expiry is surfaced as
CommandFailed(cause) and bubbles unchanged, wrapped by kind, through
`CacheService::resolve`, with no retry; a GET failure inside set-with-expiry,
however, is silently treated as an absent key rather than surfaced. -/
theorem C9_set_failure_bubbles {σ : Type} (svc : CacheService)
    (now : Nat) (key : String) (resolver : σ → String × σ) (s : σ)
    (hmem : svc.in_memory_cache.get now key = none)
    (hkv : KvCache.get svc.kv_cache key = none) (e : RedisError)
    (hset : svc.kv_cache.setEx key (resolver s).1 svc.ttl = .error e) :
    KvCache.resolve svc.kv_cache ⟨key, (resolver s).1, svc.ttl⟩ =
      (.error (.CommandFailed e), svc.kv_cache) ∧
    (svc.resolve now key resolver s).1 =
      .error (.KvCacheError (.CommandFailed e)) := by
  have hres : (svc.kv_cache.getCmd key).toOption.getD "" = "" :=
    getD_empty_of_kvGet_none svc.kv_cache key hkv
  have htier :
      KvCache.resolve svc.kv_cache ⟨key, (resolver s).1, svc.ttl⟩ =
        (.error (.CommandFailed e), svc.kv_cache) := by
    simp only [KvCache.resolve, hres, if_pos rfl, hset, if_true]
  refine ⟨htier, ?_⟩
  rw [svcResolve_of_miss_kvfail svc now key resolver s (.CommandFailed e)
    svc.kv_cache hmem hkv htier]

/-- C9 witness: a failing persistent SET on "k" surfaces as
KvCacheError(CommandFailed) from a concrete orchestrator resolve. -/
theorem C9_witness :
    (CacheService.resolve ⟨⟨[], 0⟩, ⟨[], [], ["k"]⟩, 10⟩ 0 "k"
      (fun n : Nat => ("v", n + 1)) 0).1 =
      .error (.KvCacheError (.CommandFailed (.err "command failed"))) :=
  (C9_set_failure_bubbles ⟨⟨[], 0⟩, ⟨[], [], ["k"]⟩, 10⟩ 0 "k"
    (fun n : Nat => ("v", n + 1)) 0 rfl rfl (.err "command failed") rfl).2

/-- C10: set-with-expiry cannot distinguish a stored empty string from an
absent key: whenever the GET yields the empty string or fails, it writes the
caller's value with the given expiry and returns the caller's value —
overwriting any stored empty string — and it returns a pre-existing stored
value only when that value is non-empty. -/
theorem C10_empty_indistinguishable (r : RedisConn) (p : ResolvePayload) :
    ((r.getCmd p.key).toOption.getD "" = "" →
      ∀ r2, r.setEx p.key p.value p.ttl = .ok r2 →
        KvCache.resolve r p = (.ok p.value, r2) ∧
        r2.lookup p.key = some (p.value, p.ttl)) ∧
    (∀ v, (KvCache.resolve r p).1 = .ok v →
      v = p.value ∨ (v ≠ "" ∧ r.getCmd p.key = .ok v)) := by
  constructor
  · intro hget r2 hset
    exact kvResolve_write_branch r p hget r2 hset
  · intro v hv
    by_cases hres : (r.getCmd p.key).toOption.getD "" = ""
    · left
      cases hset : r.setEx p.key p.value p.ttl with
      | error e =>
        rw [show KvCache.resolve r p = (.error (.CommandFailed e), r) from by
          simp only [KvCache.resolve, hres, if_pos rfl, hset, if_true]] at hv
        exact absurd hv (by simp)
      | ok r2 =>
        rw [(kvResolve_write_branch r p hres r2 hset).1] at hv
        simpa using hv.symm
    · right
      have hok := getCmd_ok_of_getD_ne (r.getCmd p.key)
        ((r.getCmd p.key).toOption.getD "") rfl hres
      rw [kvResolve_hit_branch r p _ hok hres] at hv
      have hveq : v = (r.getCmd p.key).toOption.getD "" := by
        simpa using hv.symm
      subst hveq
      exact ⟨hres, hok⟩

/-- C10 witness: a stored empty string under "k" is overwritten by the
caller's value, which is returned, and the new entry carries the given
expiry. -/
theorem C10_witness :
    KvCache.resolve ⟨[("k", "", 9)], [], []⟩ ⟨"k", "w", 4⟩ =
      (.ok "w", ⟨[("k", "w", 4)], [], []⟩) ∧
    RedisConn.lookup ⟨[("k", "w", 4)], [], []⟩ "k" = some ("w", 4) :=
  (C10_empty_indistinguishable ⟨[("k", "", 9)], [], []⟩ ⟨"k", "w", 4⟩).1 rfl
    ⟨[("k", "w", 4)], [], []⟩ rfl
